import Mathlib

/-!
Verification development for the ESP32 FTP firmware
(`main/ftpUiScreen.cpp`, `main/main.cpp`, `main/filesystem.cpp`).

The shallow embedding models:
* the bounded on-screen log buffer manipulated by `addLog` / `clearLog`,
* the server toggle switch callback and its control handler,
* the WiFi event handler's retry state machine,
* the storage phase of `app_main` and the monitoring loop
  (FTP state polling and the SD-card liveness check).

Byte buffers are modelled as `List Char` (the C code works on NUL-terminated
`char` arrays; the model tracks the string content before the terminator).
-/

namespace FtpFw

/-! ### Log ring buffer (`ftpUiScreen.cpp`, lines 104-261)

`#define MAX_LOG_LINES 50`, `#define MAX_LINE_LENGTH 100`,
`static char log_buffer[MAX_LOG_LINES * MAX_LINE_LENGTH]`,
`size_t max_len = sizeof(log_buffer) - 1`. -/

def MAX_LOG_LINES : Nat := 50

def MAX_LINE_LENGTH : Nat := 100

/-- `sizeof(log_buffer)` = `MAX_LOG_LINES * MAX_LINE_LENGTH` = 5000. -/
def logBufSize : Nat := MAX_LOG_LINES * MAX_LINE_LENGTH

/-- `max_len = sizeof(log_buffer) - 1` = 4999: the largest string content the
buffer can hold together with its NUL terminator. -/
def maxLen : Nat := logBufSize - 1

/-- The mutable log state of `ftpUiScreen.cpp`: `log_buffer` content (up to the
NUL terminator) and `log_line_count`. -/
structure LogState where
  buf : List Char
  count : Nat
deriving DecidableEq

/-- `strchr(log_buffer, '\n')` followed by
`memmove(log_buffer, first_newline + 1, strlen(first_newline + 1) + 1)`:
the buffer content after the first newline, or `none` if no newline exists. -/
def dropFirstLine : List Char → Option (List Char)
  | [] => none
  | c :: cs => if c = '\n' then some cs else dropFirstLine cs

/-- First eviction loop of `addLog` (lines 204-218):
`while (current_len + line_len > max_len && log_line_count > 0)` remove the
oldest line; if the buffer holds no newline, clear everything and stop.
The loop decrements `log_line_count` on every newline removal and exits when it
reaches 0, so the recursion is structural on the line count. -/
def evictForSpaceGo (lineLen : Nat) : Nat → List Char → LogState
  | 0, buf => ⟨buf, 0⟩
  | count + 1, buf =>
    if maxLen < buf.length + lineLen then
      match dropFirstLine buf with
      | some rest => evictForSpaceGo lineLen count rest
      | none => ⟨[], 0⟩
    else ⟨buf, count + 1⟩

def evictForSpace (lineLen : Nat) (st : LogState) : LogState :=
  evictForSpaceGo lineLen st.count st.buf

/-- Second eviction loop of `addLog` (lines 221-231):
`while (log_line_count >= MAX_LOG_LINES)` remove the oldest line; clear
everything if the buffer holds no newline. -/
def evictForCountGo : Nat → List Char → LogState
  | 0, buf => ⟨buf, 0⟩
  | count + 1, buf =>
    if MAX_LOG_LINES ≤ count + 1 then
      match dropFirstLine buf with
      | some rest => evictForCountGo count rest
      | none => ⟨[], 0⟩
    else ⟨buf, count + 1⟩

def evictForCount (st : LogState) : LogState :=
  evictForCountGo st.count st.buf

/-- The buffer-manipulation block of `addLog` (lines 196-250): run both
eviction loops, then either append the new line (`strncpy`/`strncat`, both of
which copy the whole line because `current_len + line_len <= max_len`) or, if
the line still does not fit, replace the whole buffer by the line truncated to
`max_len` (`strncpy(log_buffer, log_line, max_len)`) with the count reset to
1. -/
def appendLine (st : LogState) (line : List Char) : LogState :=
  let st1 := evictForSpace line.length st
  let st2 := evictForCount st1
  if st2.buf.length + line.length ≤ maxLen then
    ⟨st2.buf ++ line, st2.count + 1⟩
  else
    ⟨line.take maxLen, 1⟩

/-- `snprintf(log_line, sizeof(log_line), "[%s] %s\n", timestamp, message)`
with `sizeof(log_line) = MAX_LINE_LENGTH`: the formatted line is truncated to
at most 99 characters (plus the NUL terminator). -/
def mkLogLine (ts msg : List Char) : List Char :=
  (('[' :: ts) ++ (']' :: ' ' :: msg) ++ ['\n']).take (MAX_LINE_LENGTH - 1)

/-- UI-visible state relevant to `addLog`: whether `log_textarea` is non-null,
the text currently pushed to the textarea, and the log buffer state. -/
structure UiState where
  textareaExists : Bool
  textareaText : List Char
  log : LogState
deriving DecidableEq

/-- `addLog` (lines 179-261). The message is `none` to model a NULL `message`
pointer; `if (!log_textarea || !message) return;` guards the whole body.
Otherwise the formatted line is appended to the buffer and the whole buffer is
pushed to the textarea (`lv_textarea_set_text(log_textarea, log_buffer)`). -/
def addLog (ui : UiState) (ts : List Char) (msg : Option (List Char)) : UiState :=
  if ui.textareaExists = false then ui
  else
    match msg with
    | none => ui
    | some m =>
      let st := appendLine ui.log (mkLogLine ts m)
      { ui with log := st, textareaText := st.buf }

/-- State right after `create_screen_ftp` (lines 487-507): the textarea exists,
its text is empty, `memset(log_buffer, 0, ...)` and `log_line_count = 0`. -/
def initUi : UiState :=
  { textareaExists := true, textareaText := [], log := ⟨[], 0⟩ }

/-- A sequence of `addLog` calls, each with its own timestamp and message. -/
def addLogSeq (ui : UiState) (pairs : List (List Char × Option (List Char))) : UiState :=
  pairs.foldl (fun s p => addLog s p.1 p.2) ui

/-- `clearLog` (lines 264-275). -/
def clearLog (ui : UiState) : UiState :=
  if ui.textareaExists = false then ui
  else { ui with log := ⟨[], 0⟩, textareaText := [] }

/-! ### Basic bounds of the eviction loops and of `appendLine` -/

theorem evictForCountGo_count_lt (count : Nat) (buf : List Char) :
    (evictForCountGo count buf).count < MAX_LOG_LINES := by
  induction count generalizing buf with
  | zero => simp [evictForCountGo, MAX_LOG_LINES]
  | succ c ih =>
    rw [evictForCountGo]
    split
    · cases h : dropFirstLine buf with
      | some rest => simpa using ih rest
      | none => simp [MAX_LOG_LINES]
    · rename_i hlt
      simpa [MAX_LOG_LINES] using Nat.lt_of_not_le (by simpa [MAX_LOG_LINES] using hlt)

theorem appendLine_count_le (st : LogState) (line : List Char) :
    (appendLine st line).count ≤ MAX_LOG_LINES := by
  unfold appendLine
  dsimp only
  split
  · have := evictForCountGo_count_lt (evictForSpace line.length st).count
      (evictForSpace line.length st).buf
    simpa [evictForCount] using this
  · simp [MAX_LOG_LINES]

theorem appendLine_len_le (st : LogState) (line : List Char) :
    (appendLine st line).buf.length ≤ maxLen := by
  unfold appendLine
  dsimp only
  split
  · rename_i hfit
    simpa [List.length_append] using hfit
  · simp [Nat.min_le_left maxLen line.length]

theorem evictForSpaceGo_noop (lineLen count : Nat) (buf : List Char)
    (h : buf.length + lineLen ≤ maxLen) :
    evictForSpaceGo lineLen count buf = ⟨buf, count⟩ := by
  cases count with
  | zero => rfl
  | succ c =>
    rw [evictForSpaceGo]
    rw [if_neg (by omega)]

theorem evictForCountGo_noop (count : Nat) (buf : List Char)
    (h : count < MAX_LOG_LINES) :
    evictForCountGo count buf = ⟨buf, count⟩ := by
  cases count with
  | zero => rfl
  | succ c =>
    rw [evictForCountGo]
    rw [if_neg (by omega)]

/-- When the new line leaves room in both budgets, `addLog`'s buffer block is a
plain append: no eviction fires and the line count increments. -/
theorem appendLine_no_evict (st : LogState) (line : List Char)
    (hc : st.count < MAX_LOG_LINES)
    (hs : st.buf.length + line.length ≤ maxLen) :
    appendLine st line = ⟨st.buf ++ line, st.count + 1⟩ := by
  unfold appendLine evictForSpace evictForCount
  rw [evictForSpaceGo_noop _ _ _ hs]
  dsimp only
  rw [evictForCountGo_noop _ _ hc]
  dsimp only
  rw [if_pos hs]

/-- `addLog` keeps both budgets from any state that satisfies them. -/
theorem addLog_bounds (ui : UiState) (ts : List Char) (msg : Option (List Char))
    (h : ui.log.buf.length ≤ maxLen ∧ ui.log.count ≤ MAX_LOG_LINES) :
    (addLog ui ts msg).log.buf.length ≤ maxLen ∧
    (addLog ui ts msg).log.count ≤ MAX_LOG_LINES := by
  unfold addLog
  split
  · exact h
  · match msg with
    | none => exact h
    | some m =>
      exact ⟨appendLine_len_le ui.log (mkLogLine ts m),
        appendLine_count_le ui.log (mkLogLine ts m)⟩

theorem addLogSeq_bounds (pairs : List (List Char × Option (List Char)))
    (ui : UiState)
    (h : ui.log.buf.length ≤ maxLen ∧ ui.log.count ≤ MAX_LOG_LINES) :
    (addLogSeq ui pairs).log.buf.length ≤ maxLen ∧
    (addLogSeq ui pairs).log.count ≤ MAX_LOG_LINES := by
  induction pairs generalizing ui with
  | nil => exact h
  | cons p rest ih => exact ih (addLog ui p.1 p.2) (addLog_bounds ui p.1 p.2 h)

/-- **Claim C1.** For every sequence of `addLog` calls starting from the state
left by `create_screen_ftp`, the serialized size of the log buffer never
exceeds the 5000-byte budget and the line count never exceeds 50 — in
particular after every single append, since every prefix of the sequence is
itself such a sequence. -/
theorem C1_log_budget_invariant (pairs : List (List Char × Option (List Char))) :
    (addLogSeq initUi pairs).log.buf.length ≤ 5000 ∧
    (addLogSeq initUi pairs).log.count ≤ 50 := by
  have h := addLogSeq_bounds pairs initUi (by constructor <;> simp [initUi])
  have hm : maxLen ≤ 5000 := by decide
  have hl : MAX_LOG_LINES ≤ 50 := by decide
  exact ⟨le_trans h.1 hm, le_trans h.2 hl⟩

/-- **Claim C2, counterexample.** The claim says that appending a message
longer than the byte budget (5000) leaves the buffer containing exactly that
one truncated line with the line count reset to 1. In the code,
`snprintf(log_line, sizeof(log_line), ...)` already truncates every message to
the 100-byte line buffer before the budget logic runs, so an over-long message
is appended as an ordinary (≤ 99 byte) line: after one short append followed
by a 5001-byte message, the buffer holds two lines, not one. -/
theorem C2_counterexample :
    (addLog (addLog initUi ("12:00:00".toList) (some ['a']))
        ("12:00:00".toList) (some (List.replicate 5001 'x'))).log.count = 2 ∧
    (addLog (addLog initUi ("12:00:00".toList) (some ['a']))
        ("12:00:00".toList) (some (List.replicate 5001 'x'))).log.count ≠ 1 := by
  constructor <;> decide

/-- **Claim C2, amended.** A message longer than the 5000-byte budget is
truncated by the line formatter to `MAX_LINE_LENGTH - 1 = 99` bytes (losing
its trailing newline) and is then appended like any other line: whenever the
current state has room for one more line in both budgets, the prior buffer
contents are fully retained and the line count increments by one — the buffer
is never reset to a single line by an over-long message. -/
theorem C2_overlong_message_appended (ui : UiState) (ts msg : List Char)
    (hta : ui.textareaExists = true)
    (hlong : logBufSize < msg.length)
    (hcount : ui.log.count < MAX_LOG_LINES)
    (hroom : ui.log.buf.length + (MAX_LINE_LENGTH - 1) ≤ maxLen) :
    (addLog ui ts (some msg)).log.buf = ui.log.buf ++ mkLogLine ts msg ∧
    (addLog ui ts (some msg)).log.count = ui.log.count + 1 ∧
    (mkLogLine ts msg).length = MAX_LINE_LENGTH - 1 := by
  have hlen : (mkLogLine ts msg).length = MAX_LINE_LENGTH - 1 := by
    unfold mkLogLine
    rw [List.length_take]
    simp only [List.length_append, List.length_cons]
    have : logBufSize = 5000 := by decide
    have : MAX_LINE_LENGTH = 100 := by decide
    omega
  have happ := appendLine_no_evict ui.log (mkLogLine ts msg) hcount (by omega)
  unfold addLog
  rw [if_neg (by simp [hta])]
  dsimp only
  rw [happ]
  exact ⟨rfl, rfl, hlen⟩

/-- Witness for `C2_overlong_message_appended` at the concrete over-long
message of 5001 bytes appended to the freshly created screen. -/
theorem C2_overlong_message_appended_witness :
    (addLog initUi ("12:00:00".toList) (some (List.replicate 5001 'x'))).log.buf
        = initUi.log.buf ++ mkLogLine ("12:00:00".toList) (List.replicate 5001 'x') ∧
    (addLog initUi ("12:00:00".toList) (some (List.replicate 5001 'x'))).log.count
        = initUi.log.count + 1 ∧
    (mkLogLine ("12:00:00".toList) (List.replicate 5001 'x')).length
        = MAX_LINE_LENGTH - 1 :=
  C2_overlong_message_appended initUi ("12:00:00".toList) (List.replicate 5001 'x')
    rfl (by rw [List.length_replicate]; decide) (by decide) (by decide)

/-! ### FTP toggle control
(`ftpUiScreen.cpp` lines 102-121 and 287-320, `main.cpp` lines 140-182) -/

/-- Observable effects of `ftp_control_handler` (`main.cpp`, lines 140-182).
`flagAfter` is the value of `ftp_operation_in_progress` when the handler
returns: the handler runs with the flag set by the switch callback, and
`reset_ftp_operation_flag()` stores `false`. -/
structure CtrlResult where
  startCalls : Nat
  stopCalls : Nat
  switchSetTo : Option Bool
  statusUpdates : List String
  logs : List String
  flagAfter : Bool
deriving DecidableEq

/-- `ftp_control_handler(bool start)` with the external service abstracted:
`hasServer` is whether the global `ftpServer` is non-null and `startOk` is
what `ftpServer->isEnabled()` reports after the 500 ms settle delay. Every
path (missing server, start success, start failure, stop) ends in
`reset_ftp_operation_flag()`. -/
def ftp_control_handler (hasServer startOk : Bool) (start : Bool) : CtrlResult :=
  if hasServer = false then
    { startCalls := 0, stopCalls := 0, switchSetTo := none,
      statusUpdates := [], logs := [], flagAfter := false }
  else if start then
    if startOk then
      { startCalls := 1, stopCalls := 0, switchSetTo := none,
        statusUpdates := ["Ready"],
        logs := ["#00ff00 [OK] FTP server started#", "User: CONFIG_FTP_USER | Port: 21"],
        flagAfter := false }
    else
      { startCalls := 1, stopCalls := 0, switchSetTo := some false,
        statusUpdates := ["Error"],
        logs := ["#ff0000 [!!] FTP failed to start#"],
        flagAfter := false }
  else
    { startCalls := 0, stopCalls := 1, switchSetTo := none,
      statusUpdates := ["Stopped"],
      logs := ["#00ff00 [OK] FTP server stopped#"],
      flagAfter := false }

/-- Observable outcome of one `LV_EVENT_VALUE_CHANGED` delivery to
`server_switch_event_cb`. -/
structure SwitchCbResult where
  inFlightAfter : Bool
  enteredInFlight : Bool
  switchChecked : Bool
  startCalls : Nat
  stopCalls : Nat
  statusUpdates : List String
  logs : List String
deriving DecidableEq

/-- `server_switch_event_cb` (`ftpUiScreen.cpp`, lines 287-320) for a
`LV_EVENT_VALUE_CHANGED` event. `inFlight` is `ftp_operation_in_progress` at
entry and `isChecked` the switch state carried by the event: the user's toggle
has already flipped the widget, so the pre-toggle state is `!isChecked`.
`ftp_control_callback` is `ftp_control_handler`, registered by `app_main`
(Phase 3) before the UI is shown; the handler runs synchronously inside the
callback. -/
def server_switch_event_cb (inFlight isChecked hasServer startOk : Bool) :
    SwitchCbResult :=
  if inFlight then
    { inFlightAfter := true, enteredInFlight := false,
      switchChecked := !isChecked, startCalls := 0, stopCalls := 0,
      statusUpdates := [],
      logs := ["FTP operation in progress, ignoring toggle"] }
  else
    let h := ftp_control_handler hasServer startOk isChecked
    { inFlightAfter := h.flagAfter, enteredInFlight := true,
      switchChecked := h.switchSetTo.getD isChecked,
      startCalls := h.startCalls, stopCalls := h.stopCalls,
      statusUpdates :=
        (if isChecked then "Starting..." else "Stopping...") :: h.statusUpdates,
      logs :=
        (if isChecked then "Starting FTP server..." else "Stopping FTP server...")
          :: h.logs }

/-- **Claim C3.** A toggle event arriving while the in-flight flag is set never
invokes the service's `start()`/`stop()` and reverts the switch to its
pre-toggle state (`!isChecked`), publishing no status transition; a toggle
arriving while the flag is clear (with the service instance present) sets the
flag, publishes "Starting..."/"Stopping..." first, and invokes `start()` or
`stop()` exactly once. -/
theorem C3_toggle_single_flight (isChecked hasServer startOk : Bool) :
    ((server_switch_event_cb true isChecked hasServer startOk).startCalls = 0 ∧
     (server_switch_event_cb true isChecked hasServer startOk).stopCalls = 0 ∧
     (server_switch_event_cb true isChecked hasServer startOk).switchChecked
        = !isChecked ∧
     (server_switch_event_cb true isChecked hasServer startOk).statusUpdates = []) ∧
    (hasServer = true →
      (server_switch_event_cb false isChecked hasServer startOk).enteredInFlight
          = true ∧
      (server_switch_event_cb false isChecked hasServer startOk).statusUpdates.head?
          = some (if isChecked then "Starting..." else "Stopping...") ∧
      (server_switch_event_cb false isChecked hasServer startOk).startCalls
          + (server_switch_event_cb false isChecked hasServer startOk).stopCalls
          = 1) := by
  cases isChecked <;> cases hasServer <;> cases startOk <;> decide

/-- Witness for `C3_toggle_single_flight`: a switch-on toggle with the flag
clear and the server present. -/
theorem C3_toggle_single_flight_witness :
    (server_switch_event_cb false true true true).enteredInFlight = true ∧
    (server_switch_event_cb false true true true).statusUpdates.head?
        = some "Starting..." ∧
    (server_switch_event_cb false true true true).startCalls
        + (server_switch_event_cb false true true true).stopCalls = 1 :=
  (C3_toggle_single_flight true true true).2 rfl

/-- **Claim C7.** Every execution path of the control handler — missing
service instance, start success, start failure, and stop — ends with the
in-flight flag cleared, and consequently a toggle transaction that entered the
in-flight state always leaves it again. -/
theorem C7_inflight_always_cleared (hasServer startOk startReq isChecked : Bool) :
    (ftp_control_handler hasServer startOk startReq).flagAfter = false ∧
    (server_switch_event_cb false isChecked hasServer startOk).inFlightAfter
        = false := by
  cases hasServer <;> cases startOk <;> cases startReq <;> cases isChecked <;> decide

/-! ### WiFi connect retry state machine (`main.cpp`, lines 67-104) -/

inductive WifiEv where
  | staStart
  | staDisconnected
  | gotIp
deriving DecidableEq

/-- State touched by `wifi_event_handler`: `s_retry_num`, the two
`s_wifi_event_group` bits, plus a cumulative count of `esp_wifi_connect()`
invocations. -/
structure WifiState where
  retryNum : Nat
  failBit : Bool
  connectedBit : Bool
  connectCalls : Nat
deriving DecidableEq

/-- `wifi_event_handler` (`main.cpp`, lines 68-104): `STA_START` issues a
connect; `STA_DISCONNECTED` reissues a connect and increments the retry
counter while `s_retry_num < 10`, otherwise sets `WIFI_FAIL_BIT`;
`IP_EVENT_STA_GOT_IP` resets the retry counter and sets
`WIFI_CONNECTED_BIT`. -/
def wifi_event_handler (st : WifiState) (ev : WifiEv) : WifiState :=
  match ev with
  | .staStart => { st with connectCalls := st.connectCalls + 1 }
  | .staDisconnected =>
    if st.retryNum < 10 then
      { st with connectCalls := st.connectCalls + 1, retryNum := st.retryNum + 1 }
    else
      { st with failBit := true }
  | .gotIp => { st with retryNum := 0, connectedBit := true }

/-- State at the start of the connectivity phase: `s_retry_num = 0`, no event
bits set, no connect calls issued yet by disconnect handling. -/
def wifiInitState : WifiState := ⟨0, false, false, 0⟩

def runWifi (st : WifiState) (evs : List WifiEv) : WifiState :=
  evs.foldl wifi_event_handler st

/-- **Claim C4, counterexample.** The claim says the failure bit is set after
10 or more consecutive disconnect events. After exactly 10 consecutive
disconnects from the initial state, the handler has issued 10 reconnect
attempts and `s_retry_num` has reached 10, but `WIFI_FAIL_BIT` is still clear:
only an 11th disconnect sets it. -/
theorem C4_counterexample :
    10 ≤ (List.replicate 10 WifiEv.staDisconnected).length ∧
    (runWifi wifiInitState (List.replicate 10 WifiEv.staDisconnected)).failBit
        = false := by
  decide

/-- **Claim C4, amended.** After `n ≥ 10` consecutive disconnect events with
no intervening `GOT_IP`, exactly 10 reconnect attempts have been issued in
total — disconnects beyond the 10th issue no further `esp_wifi_connect` — and
the failure bit is set exactly when at least 11 consecutive disconnects have
arrived (the 11th is the first to publish `WIFI_FAIL_BIT`). -/
theorem C4_retry_exhaustion (n : Nat) (h : 10 ≤ n) :
    runWifi wifiInitState (List.replicate n WifiEv.staDisconnected)
      = ⟨10, decide (11 ≤ n), false, 10⟩ := by
  induction n with
  | zero => omega
  | succ m ih =>
    by_cases hm : m < 10
    · have hm9 : m = 9 := by omega
      subst hm9
      decide
    · have hrec := ih (by omega)
      have hrepl : List.replicate (m + 1) WifiEv.staDisconnected
          = List.replicate m WifiEv.staDisconnected ++ [WifiEv.staDisconnected] :=
        List.replicate_succ' m WifiEv.staDisconnected
      rw [hrepl]
      unfold runWifi at hrec ⊢
      rw [List.foldl_append, hrec]
      have h11 : decide (11 ≤ m + 1) = true := by
        simp only [decide_eq_true_eq]
        omega
      rw [h11]
      simp [wifi_event_handler]

/-- Witness for `C4_retry_exhaustion` at 12 consecutive disconnects. -/
theorem C4_retry_exhaustion_witness :
    runWifi wifiInitState (List.replicate 12 WifiEv.staDisconnected)
      = ⟨10, true, false, 10⟩ :=
  C4_retry_exhaustion 12 (by decide)

/-! ### Boot storage phase (`main.cpp`, lines 236-338) -/

/-- Outcome of `app_main` from Phase 4 on, as a function of the two mount
results and the server allocation: `wlHandle` is the value returned by
`mountFATFS("data", "/data")` (negative exactly on failure, see
`filesystem.cpp` line 32), `sdOk` whether `mountSDCARD("/sdcard", &sdcard)`
returned `ESP_OK`, `allocOk` whether `new FtpServer::Server()` yielded a
non-null pointer (checked at `main.cpp` line 319). -/
structure BootOutcome where
  hasStorage : Bool
  abortedBeforeConnectivity : Bool
  reachedConnectivity : Bool
  serverCreated : Bool
deriving DecidableEq

/-- Storage phase and the resulting control flow of `app_main`
(`main.cpp`, lines 242-325): `has_storage` is set if either mount succeeds;
`if (!has_storage) return;` aborts before Phase 5 (WiFi) and Phase 7 (server
instantiation); otherwise the sequence proceeds unconditionally to both. -/
def bootFromStorage (wlHandle : Int) (sdOk allocOk : Bool) : BootOutcome :=
  let hasStorage := decide (0 ≤ wlHandle) || sdOk
  if hasStorage = false then
    { hasStorage := false, abortedBeforeConnectivity := true,
      reachedConnectivity := false, serverCreated := false }
  else
    { hasStorage := true, abortedBeforeConnectivity := false,
      reachedConnectivity := true, serverCreated := allocOk }

/-- **Claim C5.** Storage availability is the OR of the two mount results; the
boot proceeds to the connectivity phase exactly when either mount succeeded,
and it aborts before the connectivity phase with the FTP server instance never
created if and only if both mounts failed. -/
theorem C5_storage_or_fallback (wlHandle : Int) (sdOk allocOk : Bool) :
    (bootFromStorage wlHandle sdOk allocOk).hasStorage
        = (decide (0 ≤ wlHandle) || sdOk) ∧
    (bootFromStorage wlHandle sdOk allocOk).reachedConnectivity
        = (decide (0 ≤ wlHandle) || sdOk) ∧
    (((bootFromStorage wlHandle sdOk allocOk).abortedBeforeConnectivity = true ∧
      (bootFromStorage wlHandle sdOk allocOk).serverCreated = false) ↔
      (decide (0 ≤ wlHandle) || sdOk) = false) := by
  unfold bootFromStorage
  dsimp only
  cases h : (decide (0 ≤ wlHandle) || sdOk) with
  | false => simp
  | true => cases allocOk <;> simp

/-! ### Monitoring loop: FTP state polling (`main.cpp`, lines 349-407) -/

/-- Modelled from the spec: the external service's coarse state enum.
`ftpServer.h` is not among the sources — only its callers are — and spec
section 3 lists `ServiceState` as {Disabled, Ready, ClientConnected,
SendingFile, ReceivingFile, TransferComplete}. The loop only compares
`getState()` values for equality and switches on the low byte, so the codes
are modelled as distinct small naturals. -/
inductive FtpState where
  | disabled
  | ready
  | clientConnected
  | sendingFile
  | receivingFile
  | transferComplete
deriving DecidableEq

/-- Modelled from the spec: the integer code `getState()` reports for each
state (the concrete `E_FTP_STE_*` values live in the absent `ftpServer.h`;
only distinctness and fitting in the low byte matter to the loop). -/
def FtpState.code : FtpState → Int
  | .disabled => 0
  | .ready => 1
  | .clientConnected => 2
  | .sendingFile => 3
  | .receivingFile => 4
  | .transferComplete => 5

/-- The `switch (ftp_state & 0xFF)` statement (`main.cpp`, lines 357-405):
each of the six listed cases performs exactly one status+log update; a masked
value outside them falls through with no update (the switch has no default
case). -/
def switchEmits (masked : Int) : Nat :=
  if masked = FtpState.code .disabled then 1
  else if masked = FtpState.code .ready then 1
  else if masked = FtpState.code .clientConnected then 1
  else if masked = FtpState.code .sendingFile then 1
  else if masked = FtpState.code .receivingFile then 1
  else if masked = FtpState.code .transferComplete then 1
  else 0

/-- One iteration of the state-diff block (`main.cpp`, lines 353-407): poll
`getState()`, and if it differs from `last_ftp_state` run the switch on the
low byte and record the new value. Returns the number of status/log updates
emitted this tick and the new `last_ftp_state`. -/
def monitorTick (last : Int) (s : FtpState) : Nat × Int :=
  if s.code ≠ last then (switchEmits (s.code % 256), s.code) else (0, last)

/-- Per-tick update counts across the monitoring loop. -/
def runFtpMonitor (last : Int) : List FtpState → List Nat
  | [] => []
  | s :: rest =>
    (monitorTick last s).1 :: runFtpMonitor (monitorTick last s).2 rest

/-- `last_ftp_state` after the loop has processed a list of polled states
(initially `-1`, `main.cpp` line 349). -/
def lastObserved (last : Int) (tr : List FtpState) : Int :=
  tr.foldl (fun l s => (monitorTick l s).2) last

theorem switchEmits_code (s : FtpState) : switchEmits (s.code % 256) = 1 := by
  cases s <;> decide

theorem monitorTick_fst (last : Int) (s : FtpState) :
    (monitorTick last s).1 = if s.code ≠ last then 1 else 0 := by
  unfold monitorTick
  by_cases h : s.code ≠ last
  · rw [if_pos h, if_pos h]
    exact switchEmits_code s
  · rw [if_neg h, if_neg h]

theorem runFtpMonitor_getD (tr : List FtpState) (last : Int) (i : Nat)
    (h : i < tr.length) :
    (runFtpMonitor last tr).getD i 99
      = if (tr.getD i .disabled).code ≠ lastObserved last (tr.take i) then 1
        else 0 := by
  induction tr generalizing last i with
  | nil => simp at h
  | cons s rest ih =>
    cases i with
    | zero =>
      simpa [runFtpMonitor, lastObserved] using monitorTick_fst last s
    | succ j =>
      have hj : j < rest.length := by simpa using h
      simp only [runFtpMonitor, List.getD_cons_succ, List.take_succ_cons]
      rw [ih (monitorTick last s).2 j hj]
      rfl

/-- **Claim C6.** On every tick of the monitoring loop a status/log update for
the FTP service is emitted exactly when the polled state differs from the last
observed one: one update per state change, zero updates across consecutive
ticks with unchanged state (for any trace of polled service states, starting
from `last_ftp_state = -1`). -/
theorem C6_monitor_emits_iff_changed (tr : List FtpState) (i : Nat)
    (h : i < tr.length) :
    (runFtpMonitor (-1) tr).getD i 99
      = if (tr.getD i .disabled).code ≠ lastObserved (-1) (tr.take i) then 1
        else 0 :=
  runFtpMonitor_getD tr (-1) i h

/-- Witness for `C6_monitor_emits_iff_changed`: second tick of a trace whose
polled state repeats, then changes. -/
theorem C6_monitor_emits_iff_changed_witness :
    (runFtpMonitor (-1)
        [FtpState.ready, FtpState.ready, FtpState.disabled]).getD 1 99
      = if ([FtpState.ready, FtpState.ready, FtpState.disabled].getD 1
              .disabled).code
            ≠ lastObserved (-1)
                ([FtpState.ready, FtpState.ready, FtpState.disabled].take 1)
        then 1 else 0 :=
  C6_monitor_emits_iff_changed [FtpState.ready, FtpState.ready, FtpState.disabled]
    1 (by decide)

/-! ### Null guards (`ftpUiScreen.cpp` lines 179-180, `main.cpp` lines 38-45) -/

/-- `app_main`-side context for `safe_log`: the `screen_created` flag plus the
UI state reached through `addLog`. -/
structure MainCtx where
  screenCreated : Bool
  ui : UiState
deriving DecidableEq

/-- `safe_log` (`main.cpp`, lines 38-45): always logs to the serial console,
but touches the screen (`addLog`) only while `screen_created` is set. -/
def safe_log (ctx : MainCtx) (ts msg : List Char) : MainCtx :=
  if ctx.screenCreated then { ctx with ui := addLog ctx.ui ts (some msg) }
  else ctx

/-- **Claim C9.** `addLog` with a NULL message returns immediately from any
state, `addLog` before `create_screen_ftp` (null `log_textarea`) returns
immediately, and `safe_log` skips the screen update entirely while
`screen_created` is false — buffer, line count and UI all unchanged. -/
theorem C9_null_guards (uiAny ui : UiState) (ctx : MainCtx) (ts msg : List Char)
    (hta : ui.textareaExists = false) (hsc : ctx.screenCreated = false) :
    addLog uiAny ts none = uiAny ∧
    addLog ui ts (some msg) = ui ∧
    safe_log ctx ts msg = ctx := by
  refine ⟨?_, ?_, ?_⟩
  · unfold addLog
    split
    · rfl
    · rfl
  · unfold addLog
    rw [if_pos hta]
  · unfold safe_log
    rw [if_neg (by simp [hsc])]

/-- Witness for `C9_null_guards` at concrete states: a created screen fed a
NULL message, a pre-screen state fed a real message, and `safe_log` before
`screen_created`. -/
theorem C9_null_guards_witness :
    addLog initUi ("12:00:00".toList) none = initUi ∧
    addLog { textareaExists := false, textareaText := [], log := ⟨[], 0⟩ }
        ("12:00:00".toList) (some ['x'])
      = { textareaExists := false, textareaText := [], log := ⟨[], 0⟩ } ∧
    safe_log { screenCreated := false, ui := initUi } ("12:00:00".toList) ['x']
      = { screenCreated := false, ui := initUi } :=
  C9_null_guards initUi
    { textareaExists := false, textareaText := [], log := ⟨[], 0⟩ }
    { screenCreated := false, ui := initUi }
    ("12:00:00".toList) ['x'] rfl rfl

/-! ### Monitoring loop: SD-card liveness check (`main.cpp`, lines 409-425) -/

/-- One pass of the SD liveness block: `mounted` is whether the global
`sdcard` handle is non-null (set once at boot by `mountSDCARD` and never
reassigned), `wasPresent` is `sdcard_was_present`, `iteration` the loop
counter, `statusOk` whether `sdmmc_get_status(sdcard)` returned `ESP_OK`.
Returns the new flag and the number of log lines emitted. -/
def sdCheckTick (mounted wasPresent : Bool) (iteration : Nat) (statusOk : Bool) :
    Bool × Nat :=
  if iteration % 10 = 0 ∧ mounted = true then
    if statusOk = false ∧ wasPresent = true then (false, 1)
    else if statusOk = true ∧ wasPresent = false then (true, 1)
    else (wasPresent, 0)
  else (wasPresent, 0)

/-- The liveness check across successive loop iterations: one status sample
per tick, `iteration` incrementing each time. Returns the final flag and the
total number of log lines emitted. -/
def sdCheckRun (mounted wasPresent : Bool) (iteration : Nat) :
    List Bool → Bool × Nat
  | [] => (wasPresent, 0)
  | ok :: rest =>
    let r := sdCheckTick mounted wasPresent iteration ok
    let rr := sdCheckRun mounted r.1 (iteration + 1) rest
    (rr.1, r.2 + rr.2)

/-- **Claim C10.** The SD liveness check runs only on every 10th iteration and
only when the card was mounted at boot; when it runs, a presence transition is
logged exactly once per change of the sampled status (the flag tracks the
status, and an unchanged status emits nothing); and with no card mounted at
boot, no trace of ticks ever re-checks or reports the card. -/
theorem C10_sd_liveness_check (mounted wasPresent : Bool) (iteration : Nat)
    (statusOk : Bool) (was2 : Bool) (iter2 : Nat) (oks : List Bool) :
    sdCheckTick mounted wasPresent iteration statusOk
      = (if iteration % 10 = 0 ∧ mounted = true then
          (if wasPresent = statusOk then (wasPresent, 0) else (statusOk, 1))
         else (wasPresent, 0)) ∧
    sdCheckRun false was2 iter2 oks = (was2, 0) := by
  constructor
  · by_cases h : iteration % 10 = 0 ∧ mounted = true
    · rw [sdCheckTick, if_pos h, if_pos h]
      cases statusOk <;> cases wasPresent <;> simp
    · rw [sdCheckTick, if_neg h, if_neg h]
  · induction oks generalizing was2 iter2 with
    | nil => rfl
    | cons ok rest ih =>
      simp [sdCheckRun, sdCheckTick, ih]

/-! ### FIFO eviction of the oldest line (claim C8)

Every `addLog` of an 8-character timestamp and a newline-free 10-byte message
produces a 22-byte line `"[" ts "] " msg "\n"`, so 50 lines occupy 1100 of the
4999 available bytes: the size loop never fires and the only eviction is the
line-count loop removing exactly the oldest line on the 51st append. -/

/-- A buffer line as produced by `mkLogLine` for the C8 scenario: 22 bytes,
ending in the only newline it contains. -/
def goodLine (l : List Char) : Prop :=
  l.length = 22 ∧ ∃ b, l = b ++ ['\n'] ∧ '\n' ∉ b

/-- A C8 scenario append: an 8-character newline-free timestamp and a 10-byte
newline-free (one-line) message. -/
def goodPair (p : List Char × List Char) : Prop :=
  p.1.length = 8 ∧ '\n' ∉ p.1 ∧ p.2.length = 10 ∧ '\n' ∉ p.2

instance (p : List Char × List Char) : Decidable (goodPair p) := by
  unfold goodPair
  infer_instance

def fmtPair (p : List Char × List Char) : List Char := mkLogLine p.1 p.2

theorem mkLogLine_short (ts msg : List Char)
    (h : 1 + ts.length + (2 + msg.length + 1) ≤ MAX_LINE_LENGTH - 1) :
    mkLogLine ts msg = ('[' :: ts) ++ (']' :: ' ' :: msg) ++ ['\n'] := by
  unfold mkLogLine
  apply List.take_of_length_le
  simp only [List.length_append, List.length_cons, List.length_nil]
  omega

theorem goodLine_fmtPair (p : List Char × List Char) (hp : goodPair p) :
    goodLine (fmtPair p) := by
  obtain ⟨hts, htn, hms, hmn⟩ := hp
  have heq := mkLogLine_short p.1 p.2 (by rw [hts, hms]; decide)
  constructor
  · rw [fmtPair, heq]
    simp only [List.length_append, List.length_cons, List.length_nil, hts, hms]
  · refine ⟨('[' :: p.1) ++ (']' :: ' ' :: p.2), ?_, ?_⟩
    · rw [fmtPair, heq, List.append_assoc]
    · intro hmem
      rcases List.mem_append.mp hmem with hmem | hmem
      · rcases List.mem_cons.mp hmem with hmem | hmem
        · exact absurd hmem (by decide)
        · exact htn hmem
      · rcases List.mem_cons.mp hmem with hmem | hmem
        · exact absurd hmem (by decide)
        · rcases List.mem_cons.mp hmem with hmem | hmem
          · exact absurd hmem (by decide)
          · exact hmn hmem

theorem flatten_length_22 (ls : List (List Char)) (h : ∀ l ∈ ls, l.length = 22) :
    ls.flatten.length = 22 * ls.length := by
  induction ls with
  | nil => rfl
  | cons l rest ih =>
    have hl : l.length = 22 := h l (List.mem_cons_self l rest)
    have hr := ih (fun x hx => h x (List.mem_cons_of_mem l hx))
    simp only [List.flatten_cons, List.length_append, List.length_cons, hl, hr]
    ring

theorem dropFirstLine_body (b rest : List Char) (hb : '\n' ∉ b) :
    dropFirstLine (b ++ '\n' :: rest) = some rest := by
  induction b with
  | nil => simp [dropFirstLine]
  | cons c cs ih =>
    have hc : ¬(c = '\n') := fun hc => hb (by simp [hc])
    have hcs : '\n' ∉ cs := fun h => hb (List.mem_cons_of_mem c h)
    simp only [List.cons_append, dropFirstLine, if_neg hc]
    exact ih hcs

theorem dropFirstLine_flatten_cons (l : List Char) (ls : List (List Char))
    (hl : ∃ b, l = b ++ ['\n'] ∧ '\n' ∉ b) :
    dropFirstLine ((l :: ls).flatten) = some ls.flatten := by
  obtain ⟨b, rfl, hb⟩ := hl
  rw [List.flatten_cons, List.append_assoc]
  exact dropFirstLine_body b ls.flatten hb

/-- The 51st append of the scenario: with 50 resident 22-byte lines the size
loop stays idle and the count loop evicts exactly the oldest line. -/
theorem appendLine_evict_oldest (l line : List Char) (ls : List (List Char))
    (hl : goodLine l) (hall : ∀ x ∈ l :: ls, x.length = 22)
    (hn : ls.length = 49) (hline : line.length = 22) :
    appendLine ⟨(l :: ls).flatten, 50⟩ line = ⟨(ls ++ [line]).flatten, 50⟩ := by
  have hsz : (l :: ls).flatten.length = 1100 := by
    rw [flatten_length_22 _ hall]
    simp [hn]
  have hsz' : ls.flatten.length = 1078 := by
    rw [flatten_length_22 ls (fun x hx => hall x (List.mem_cons_of_mem l hx))]
    rw [hn]
  have hcnt : evictForCountGo 50 ((l :: ls).flatten) = ⟨ls.flatten, 49⟩ := by
    rw [show (50 : Nat) = 49 + 1 from rfl, evictForCountGo,
      dropFirstLine_flatten_cons l ls hl.2,
      if_pos (show MAX_LOG_LINES ≤ 49 + 1 by decide)]
    exact evictForCountGo_noop 49 ls.flatten (by decide)
  unfold appendLine evictForSpace evictForCount
  dsimp only
  rw [evictForSpaceGo_noop line.length 50 ((l :: ls).flatten)
    (by rw [hsz, hline]; decide)]
  dsimp only
  rw [hcnt]
  dsimp only
  rw [if_pos (show ls.flatten.length + line.length ≤ maxLen from by
    rw [hsz', hline]; decide)]
  rw [List.flatten_append]
  simp

/-- Appends that stay within the 50-line budget (with 22-byte lines) are plain
appends: the state remains the flattening of the line list. -/
theorem addLogSeq_under_capacity (pairs : List (List Char × List Char))
    (ls : List (List Char)) (hgood : ∀ p ∈ pairs, goodPair p)
    (hls : ∀ l ∈ ls, l.length = 22) (hcap : ls.length + pairs.length ≤ 50) :
    addLogSeq ⟨true, ls.flatten, ⟨ls.flatten, ls.length⟩⟩
        (pairs.map (fun p => (p.1, some p.2)))
      = ⟨true, (ls ++ pairs.map fmtPair).flatten,
          ⟨(ls ++ pairs.map fmtPair).flatten, ls.length + pairs.length⟩⟩ := by
  induction pairs generalizing ls with
  | nil => simp [addLogSeq]
  | cons p rest ih =>
    have hp : goodPair p := hgood p (List.mem_cons_self p rest)
    have hfl : (fmtPair p).length = 22 := (goodLine_fmtPair p hp).1
    have hcap' : ls.length + rest.length + 1 ≤ 50 := by
      simp only [List.length_cons] at hcap
      omega
    have hstep := appendLine_no_evict ⟨ls.flatten, ls.length⟩ (mkLogLine p.1 p.2)
      (show ls.length < MAX_LOG_LINES from by
        simp only [MAX_LOG_LINES]
        omega)
      (show ls.flatten.length + (mkLogLine p.1 p.2).length ≤ maxLen from by
        rw [flatten_length_22 ls hls, show (mkLogLine p.1 p.2).length = 22 from hfl]
        have h1 : ls.length ≤ 50 := by omega
        have h2 : maxLen = 4999 := by decide
        omega)
    have haddLog : addLog ⟨true, ls.flatten, ⟨ls.flatten, ls.length⟩⟩ p.1 (some p.2)
        = ⟨true, (ls ++ [fmtPair p]).flatten,
            ⟨(ls ++ [fmtPair p]).flatten, ls.length + 1⟩⟩ := by
      unfold addLog
      rw [if_neg (by simp)]
      dsimp only
      rw [hstep]
      simp [List.flatten_append, fmtPair]
    have hnext := ih (ls ++ [fmtPair p])
      (fun q hq => hgood q (List.mem_cons_of_mem p hq))
      (fun x hx => by
        rcases List.mem_append.mp hx with hx | hx
        · exact hls x hx
        · rw [List.mem_singleton.mp hx]
          exact hfl)
      (by simp; omega)
    rw [show (ls ++ [fmtPair p]).length = ls.length + 1 by simp] at hnext
    show addLogSeq (addLog ⟨true, ls.flatten, ⟨ls.flatten, ls.length⟩⟩ p.1 (some p.2))
        (rest.map (fun p => (p.1, some p.2)))
      = ⟨true, (ls ++ (p :: rest).map fmtPair).flatten,
          ⟨(ls ++ (p :: rest).map fmtPair).flatten, ls.length + (p :: rest).length⟩⟩
    rw [haddLog, hnext]
    simp only [List.map_cons, List.length_cons, List.append_assoc,
      List.singleton_append, UiState.mk.injEq, LogState.mk.injEq, true_and]
    omega

/-- **Claim C8.** Appending 51 one-line messages of 10 bytes each (with their
8-character timestamps) to the fresh screen yields a buffer holding exactly
the last 50 formatted lines in append order — the oldest line is evicted
first and no other line is lost — with the line count at 50. -/
theorem C8_fifo_oldest_evicted (pairs : List (List Char × List Char))
    (hlen : pairs.length = 51) (hgood : ∀ p ∈ pairs, goodPair p) :
    (addLogSeq initUi (pairs.map (fun p => (p.1, some p.2)))).log.buf
        = ((pairs.drop 1).map fmtPair).flatten ∧
    (addLogSeq initUi (pairs.map (fun p => (p.1, some p.2)))).log.count = 50 := by
  obtain ⟨q, hq⟩ : ∃ q, pairs.drop 50 = [q] := by
    apply List.length_eq_one.mp
    rw [List.length_drop, hlen]
  have hq50 : goodPair q :=
    hgood q (List.drop_subset 50 pairs (hq ▸ List.mem_singleton_self q))
  have htk : (pairs.take 50).length = 50 := by
    rw [List.length_take, hlen]
    rfl
  have h50 : addLogSeq initUi ((pairs.take 50).map (fun p => (p.1, some p.2)))
      = ⟨true, ([] ++ (pairs.take 50).map fmtPair).flatten,
          ⟨([] ++ (pairs.take 50).map fmtPair).flatten,
            List.length ([] : List (List Char)) + (pairs.take 50).length⟩⟩ :=
    addLogSeq_under_capacity (pairs.take 50) []
      (fun p hp => hgood p (List.take_subset 50 pairs hp)) (by simp)
      (by rw [htk]; simp)
  have hsplit : pairs.map (fun p => (p.1, some p.2))
      = (pairs.take 50).map (fun p => (p.1, some p.2)) ++ [(q.1, some q.2)] := by
    conv_lhs => rw [← List.take_append_drop 50 pairs]
    rw [List.map_append, hq]
    rfl
  -- line list after the first 50 appends
  have hM : ((pairs.take 50).map fmtPair).length = 50 := by
    rw [List.length_map, htk]
  obtain ⟨l, ls', hMcons⟩ : ∃ l ls', (pairs.take 50).map fmtPair = l :: ls' := by
    cases hMc : (pairs.take 50).map fmtPair with
    | nil => rw [hMc] at hM; exact absurd hM (by decide)
    | cons l ls' => exact ⟨l, ls', rfl⟩
  have hMmem : ∀ x ∈ (pairs.take 50).map fmtPair, goodLine x := by
    intro x hx
    obtain ⟨p, hp, rfl⟩ := List.mem_map.mp hx
    exact goodLine_fmtPair p (hgood p (List.take_subset 50 pairs hp))
  have hls' : ls'.length = 49 := by
    rw [hMcons] at hM
    simpa using hM
  have hlgood : goodLine l := hMmem l (by rw [hMcons]; exact List.mem_cons_self l ls')
  have hall22 : ∀ x ∈ l :: ls', x.length = 22 := by
    intro x hx
    exact (hMmem x (by rw [hMcons]; exact hx)).1
  -- run the first 50 appends, then the 51st
  rw [hsplit]
  unfold addLogSeq
  rw [List.foldl_append]
  unfold addLogSeq at h50
  rw [h50]
  simp only [List.nil_append, List.length_nil, Nat.zero_add, htk, List.foldl_cons,
    List.foldl_nil]
  rw [hMcons]
  rw [show addLog ⟨true, (l :: ls').flatten, ⟨(l :: ls').flatten, 50⟩⟩ q.1 (some q.2)
      = ⟨true, ((ls' ++ [fmtPair q]).flatten),
          ⟨(ls' ++ [fmtPair q]).flatten, 50⟩⟩ from by
    unfold addLog
    rw [if_neg (by simp)]
    dsimp only
    rw [show mkLogLine q.1 q.2 = fmtPair q from rfl]
    rw [appendLine_evict_oldest l (fmtPair q) ls' hlgood hall22 hls'
      (goodLine_fmtPair q hq50).1]]
  have hlines : ls' ++ [fmtPair q] = (pairs.drop 1).map fmtPair := by
    have h1 : ls' = ((pairs.take 50).map fmtPair).drop 1 := by
      rw [hMcons]
      rfl
    have h2 : ((pairs.take 50).map fmtPair).drop 1
        = ((pairs.take 50).drop 1).map fmtPair := (List.map_drop fmtPair _ 1).symm
    have h3 : [fmtPair q] = (pairs.drop 50).map fmtPair := by rw [hq]; rfl
    rw [h1, h2, h3, ← List.map_append]
    congr 1
    have h4 : pairs.drop 50 = (pairs.drop 1).drop 49 := by
      rw [List.drop_drop]
    rw [List.drop_take, h4]
    exact List.take_append_drop 49 (pairs.drop 1)
  rw [hlines]
  exact ⟨rfl, rfl⟩

/-- Witness for `C8_fifo_oldest_evicted`: 51 identical appends of the 10-byte
message "0123456789" under the timestamp "12:00:00". -/
theorem C8_fifo_oldest_evicted_witness :
    (addLogSeq initUi ((List.replicate 51 ("12:00:00".toList, "0123456789".toList)).map
        (fun p => (p.1, some p.2)))).log.buf
      = (((List.replicate 51 ("12:00:00".toList, "0123456789".toList)).drop 1).map
          fmtPair).flatten ∧
    (addLogSeq initUi ((List.replicate 51 ("12:00:00".toList, "0123456789".toList)).map
        (fun p => (p.1, some p.2)))).log.count = 50 :=
  C8_fifo_oldest_evicted (List.replicate 51 ("12:00:00".toList, "0123456789".toList))
    (by simp) (by decide)

end FtpFw
